import Mathlib

/-!
Shallow embedding of the criticode review pipeline server
(`src/server/src/services/gemini.service.ts`, `review.service.ts`,
the review routes and the rate-limit middleware), together with
theorems settling the specification claims about it.

Texts are modelled as `List Char` (wrapped in `String` at the API
boundary); JavaScript values produced by `JSON.parse` are modelled by
the inductive `Json` below, with numbers as exact rationals (the code
never does arithmetic on them, only `typeof` checks, so the float
representation is immaterial).  JavaScript objects are association
lists; arrays carry their elements plus the named properties that
strict-mode assignment can attach to them.
-/

/-- A JavaScript value as produced by `JSON.parse` (plus any named
properties later assigned to an array object). -/
inductive Json where
  | null : Json
  | bool (b : Bool) : Json
  | num (q : Rat) : Json
  | str (s : String) : Json
  | arr (elems : List Json) (props : List (String × Json)) : Json
  | obj (props : List (String × Json)) : Json

/-- Property lookup on an association list (first binding wins; the
parser and `insertProp` keep keys unique). -/
def lookupProp : List (String × Json) → String → Option Json
  | [], _ => none
  | (k1, v1) :: rest, k => if k1 = k then some v1 else lookupProp rest k

/-- Property write on an association list: updates an existing key in
place, otherwise appends (JavaScript property-creation order). -/
def insertProp : List (String × Json) → String → Json → List (String × Json)
  | [], k, v => [(k, v)]
  | (k1, v1) :: rest, k, v =>
    if k1 = k then (k1, v) :: rest else (k1, v1) :: insertProp rest k v

/-- Property read `j[k]` — `undefined` (`none`) on primitives and on
missing keys. -/
def getField (j : Json) (k : String) : Option Json :=
  match j with
  | .obj props => lookupProp props k
  | .arr _ props => lookupProp props k
  | _ => none

/-- Property write `j[k] = v`.  On an object or array it succeeds; on a
primitive or `null` a strict-mode assignment throws (`none`). -/
def setField (j : Json) (k : String) (v : Json) : Option Json :=
  match j with
  | .obj props => some (.obj (insertProp props k v))
  | .arr es props => some (.arr es (insertProp props k v))
  | _ => none

/-- `typeof j === 'object' && j` — true for objects and arrays (both
are truthy objects in JavaScript), false for every primitive. -/
def isObjectLike (j : Json) : Bool :=
  match j with
  | .obj _ => true
  | .arr _ _ => true
  | _ => false

/-! ### A JSON text parser (the model of `JSON.parse`) -/

/-- Whitespace accepted by the JSON grammar. -/
def isJsonWs (c : Char) : Bool :=
  c = ' ' || c = '\t' || c = '\n' || c = '\r'

/-- Decimal digit value. -/
def digitVal (c : Char) : Option Nat :=
  if '0' ≤ c ∧ c ≤ '9' then some (c.toNat - 48) else none

/-- Hexadecimal digit value (for `\u` escapes). -/
def hexVal (c : Char) : Option Nat :=
  if '0' ≤ c ∧ c ≤ '9' then some (c.toNat - 48)
  else if 'a' ≤ c ∧ c ≤ 'f' then some (c.toNat - 87)
  else if 'A' ≤ c ∧ c ≤ 'F' then some (c.toNat - 55)
  else none

/-- Body of a JSON string literal, after the opening quote; returns the
decoded characters and the remaining input. -/
def parseStringChars : List Char → Option (List Char × List Char)
  | [] => none
  | '"' :: rest => some ([], rest)
  | '\\' :: rest =>
    match rest with
    | [] => none
    | e :: rest2 =>
      if e = '"' then (parseStringChars rest2).map (fun p => ('"' :: p.1, p.2))
      else if e = '\\' then (parseStringChars rest2).map (fun p => ('\\' :: p.1, p.2))
      else if e = '/' then (parseStringChars rest2).map (fun p => ('/' :: p.1, p.2))
      else if e = 'b' then (parseStringChars rest2).map (fun p => ('\x08' :: p.1, p.2))
      else if e = 'f' then (parseStringChars rest2).map (fun p => ('\x0c' :: p.1, p.2))
      else if e = 'n' then (parseStringChars rest2).map (fun p => ('\n' :: p.1, p.2))
      else if e = 'r' then (parseStringChars rest2).map (fun p => ('\r' :: p.1, p.2))
      else if e = 't' then (parseStringChars rest2).map (fun p => ('\t' :: p.1, p.2))
      else if e = 'u' then
        match rest2 with
        | h1 :: h2 :: h3 :: h4 :: rest3 =>
          match hexVal h1, hexVal h2, hexVal h3, hexVal h4 with
          | some a, some b, some c, some d =>
            (parseStringChars rest3).map
              (fun p => (Char.ofNat (a * 4096 + b * 256 + c * 16 + d) :: p.1, p.2))
          | _, _, _, _ => none
        | _ => none
      else none
  | c :: rest =>
    if c.toNat < 32 then none
    else (parseStringChars rest).map (fun p => (c :: p.1, p.2))

/-- Reads a maximal run of decimal digits. -/
def readDigits : List Char → List Nat × List Char
  | [] => ([], [])
  | c :: rest =>
    match digitVal c with
    | some d =>
      let p := readDigits rest
      (d :: p.1, p.2)
    | none => ([], c :: rest)

/-- Digits to a natural number, most significant first. -/
def digitsToNat (ds : List Nat) : Nat :=
  ds.foldl (fun acc d => acc * 10 + d) 0

/-- Number value from its parts: sign, integer digits, fraction digits
and signed exponent, as an exact rational. -/
def ratOfParts (neg : Bool) (intDs fracDs : List Nat) (expNeg : Bool)
    (expDs : List Nat) : Rat :=
  let mant : Int := Int.ofNat (digitsToNat (intDs ++ fracDs))
  let scale : Nat := fracDs.length
  let ev : Nat := digitsToNat expDs
  let mag : Rat :=
    if expNeg then mkRat mant (10 ^ (scale + ev))
    else mkRat (mant * Int.ofNat (10 ^ ev)) (10 ^ scale)
  if neg then -mag else mag

/-- A JSON number literal (JSON grammar: optional minus, no leading
zeros, fraction and exponent each need at least one digit). -/
def parseNumber (l : List Char) : Option (Rat × List Char) :=
  let (neg, l1) := match l with
    | '-' :: rest => (true, rest)
    | _ => (false, l)
  let (intDs, l2) := readDigits l1
  match intDs with
  | [] => none
  | d0 :: ds =>
    if d0 = 0 ∧ ds ≠ [] then none
    else
      let (fracDs, l3) := match l2 with
        | '.' :: rest => readDigits rest
        | _ => ([], l2)
      let fracOk : Bool := match l2 with
        | '.' :: _ => !fracDs.isEmpty
        | _ => true
      let hasExp : Bool := match l3 with
        | 'e' :: _ => true
        | 'E' :: _ => true
        | _ => false
      let (expNeg, l4) := match l3 with
        | _ :: '+' :: rest => if hasExp then (false, rest) else (false, l3)
        | _ :: '-' :: rest => if hasExp then (true, rest) else (false, l3)
        | _ :: rest => if hasExp then (false, rest) else (false, l3)
        | _ => (false, l3)
      let (expDs, l5) := if hasExp then readDigits l4 else ([], l3)
      if hasExp ∧ expDs.isEmpty then none
      else if fracOk then some (ratOfParts neg intDs fracDs expNeg expDs, l5)
      else none

mutual

/-- A JSON value (fuelled recursive descent; fuel is an upper bound on
nesting depth, supplied as the input length). -/
def parseVal : Nat → List Char → Option (Json × List Char)
  | 0, _ => none
  | fuel + 1, l =>
    match l with
    | [] => none
    | 'n' :: 'u' :: 'l' :: 'l' :: rest => some (.null, rest)
    | 't' :: 'r' :: 'u' :: 'e' :: rest => some (.bool true, rest)
    | 'f' :: 'a' :: 'l' :: 's' :: 'e' :: rest => some (.bool false, rest)
    | '"' :: rest =>
      (parseStringChars rest).map (fun p => (.str ⟨p.1⟩, p.2))
    | '[' :: rest =>
      match (rest.dropWhile isJsonWs) with
      | ']' :: rest2 => some (.arr [] [], rest2)
      | rest2 => parseElems fuel rest2 []
    | '{' :: rest =>
      match (rest.dropWhile isJsonWs) with
      | '}' :: rest2 => some (.obj [], rest2)
      | rest2 => parseMembers fuel rest2 []
    | _ => (parseNumber l).map (fun p => (.num p.1, p.2))

/-- Array elements after `[`, first element already known to exist. -/
def parseElems : Nat → List Char → List Json → Option (Json × List Char)
  | 0, _, _ => none
  | fuel + 1, l, acc =>
    match parseVal fuel l with
    | none => none
    | some (v, rest) =>
      match rest.dropWhile isJsonWs with
      | ',' :: rest2 => parseElems fuel (rest2.dropWhile isJsonWs) (acc ++ [v])
      | ']' :: rest2 => some (.arr (acc ++ [v]) [], rest2)
      | _ => none

/-- Object members after `{`, first member already known to exist.
Duplicate keys overwrite earlier ones, as `JSON.parse` does. -/
def parseMembers : Nat → List Char → List (String × Json) → Option (Json × List Char)
  | 0, _, _ => none
  | fuel + 1, l, acc =>
    match l with
    | '"' :: rest =>
      match parseStringChars rest with
      | none => none
      | some (key, rest2) =>
        match rest2.dropWhile isJsonWs with
        | ':' :: rest3 =>
          match parseVal fuel (rest3.dropWhile isJsonWs) with
          | none => none
          | some (v, rest4) =>
            let acc2 := insertProp acc ⟨key⟩ v
            match rest4.dropWhile isJsonWs with
            | ',' :: rest5 => parseMembers fuel (rest5.dropWhile isJsonWs) acc2
            | '}' :: rest5 => some (.obj acc2, rest5)
            | _ => none
        | _ => none
    | _ => none

end

/-- The model of `JSON.parse`: whole-text parse, leading and trailing
whitespace allowed, nothing else may remain. -/
def jsonParse (l : List Char) : Option Json :=
  match parseVal (l.length + 1) (l.dropWhile isJsonWs) with
  | some (j, rest) => if rest.dropWhile isJsonWs = [] then some j else none
  | none => none

/-! ### Response cleaning and parsing (`gemini.service.ts`, `parseResponse`) -/

/-- Whitespace as matched by JavaScript `\s` and `String.trim` (the
ASCII part; the claims never involve exotic Unicode spaces). -/
def jsWs (c : Char) : Bool :=
  c = ' ' || c = '\t' || c = '\n' || c = '\r' || c = '\x0c' || c = '\x0b'

/-- Leading-whitespace strip. -/
def trimLeft (l : List Char) : List Char := l.dropWhile jsWs

/-- Trailing-whitespace strip. -/
def trimRight (l : List Char) : List Char := (l.reverse.dropWhile jsWs).reverse

/-- `responseText.trim()`. -/
def jsTrim (l : List Char) : List Char := trimRight (trimLeft l)

/-- `.replace(/\s*```$/, '')`: drops one trailing fence and the
whitespace immediately before it, if the text ends with a fence. -/
def stripTrailingFence (l : List Char) : List Char :=
  let r := l.reverse
  if ['`', '`', '`'].isPrefixOf r then ((r.drop 3).dropWhile jsWs).reverse else l

/-- The cleaning step of `parseResponse` (gemini.service.ts lines
162-174): trim, then strip one leading ```` ```json ```` or ```` ``` ````
fence with the whitespace after it and one trailing fence with the
whitespace before it. -/
def cleanResponse (l : List Char) : List Char :=
  let t := jsTrim l
  if "```json".data.isPrefixOf t then stripTrailingFence ((t.drop 7).dropWhile jsWs)
  else if "```".data.isPrefixOf t then stripTrailingFence ((t.drop 3).dropWhile jsWs)
  else t

/-- The canonical analysis shape: exactly four arrays, whose entries
are the JavaScript values the model produced. -/
structure CodeAnalysisResult where
  security : List Json
  performance : List Json
  bestPractices : List Json
  refactoring : List Json

/-- `GeminiParseError`: carries the first 200 characters of the raw
response text (`responseText.substring(0, 200)`). -/
structure GeminiParseError where
  excerpt : String

/-- The four accepted severity values. -/
def severityValues : List String := ["Critical", "High", "Medium", "Low"]

/-- The `line` coercion of `validateAnalysisResult`, applied to every
item of every collection: a non-numeric `line` is overwritten with `0`.
Strict-mode assignment on a non-object entry throws (`none`), which
`parseResponse` converts into a parse error. -/
def validateLineItem (j : Json) : Option Json :=
  match getField j "line" with
  | some (.num _) => some j
  | _ => setField j "line" (.num 0)

/-- One security item of `validateAnalysisResult`: a missing, falsy or
unrecognized `severity` is overwritten with `"Medium"`, then the `line`
coercion applies. -/
def validateSecurityItem (j : Json) : Option Json :=
  match
    (match getField j "severity" with
     | some (.str s) => if s ∈ severityValues then some j else setField j "severity" (.str "Medium")
     | _ => setField j "severity" (.str "Medium"))
  with
  | none => none
  | some j1 => validateLineItem j1

/-- Effectful map over a list that fails as soon as one element fails
(the model of a `forEach` whose body can throw). -/
def optionMapM (f : Json → Option Json) : List Json → Option (List Json)
  | [] => some []
  | x :: xs =>
    match f x, optionMapM f xs with
    | some y, some ys => some (y :: ys)
    | _, _ => none

/-- `validateAnalysisResult` (gemini.service.ts lines 210-237), as a
function instead of in-place mutation. -/
def validateAnalysisResult (r : CodeAnalysisResult) : Option CodeAnalysisResult :=
  match optionMapM validateSecurityItem r.security,
        optionMapM validateLineItem r.performance,
        optionMapM validateLineItem r.bestPractices,
        optionMapM validateLineItem r.refactoring with
  | some sec, some perf, some bp, some rf => some ⟨sec, perf, bp, rf⟩
  | _, _, _, _ => none

/-- `Array.isArray(o) ? o : []`, keeping the elements. -/
def asArrayElems (o : Option Json) : List Json :=
  match o with
  | some (.arr es _) => es
  | _ => []

/-- The repair step of `parseResponse` (lines 184-196): each of the
four expected fields that is missing or not an array becomes an empty
array. -/
def buildResult (parsed : Json) : CodeAnalysisResult :=
  ⟨asArrayElems (getField parsed "security"),
   asArrayElems (getField parsed "performance"),
   asArrayElems (getField parsed "bestPractices"),
   asArrayElems (getField parsed "refactoring")⟩

/-- First 200 characters of the raw text, as the parse-error payload. -/
def excerpt200 (l : List Char) : String := ⟨l.take 200⟩

/-- `parseResponse` (gemini.service.ts lines 160-205): clean, parse as
JSON, reject a non-object, repair the four collections, validate the
items; any failure inside the `try` surfaces as a `GeminiParseError`
carrying an excerpt of the raw text. -/
def parseResponse (responseText : String) : Except GeminiParseError CodeAnalysisResult :=
  match jsonParse (cleanResponse responseText.data) with
  | none => .error ⟨excerpt200 responseText.data⟩
  | some parsed =>
    if isObjectLike parsed then
      match validateAnalysisResult (buildResult parsed) with
      | some r => .ok r
      | none => .error ⟨excerpt200 responseText.data⟩
    else .error ⟨excerpt200 responseText.data⟩

/-- `Array.isArray` on an optional field value. -/
def isArrayValue (o : Option Json) : Bool :=
  match o with
  | some (.arr _ _) => true
  | _ => false

/-- A payload wrapped in a ```` ```json ```` fenced block. -/
def wrapJsonFence (p : String) : String := "```json\n" ++ p ++ "\n```"

/-- A payload wrapped in a plain ```` ``` ```` fenced block. -/
def wrapPlainFence (p : String) : String := "```\n" ++ p ++ "\n```"

/-! ### The retry loop of `analyzeCode` (gemini.service.ts lines 310-353) -/

/-- Failure classes an attempt can end with: a configuration error, a
15-second timeout, a response-parse error, or a generic transport
failure. -/
inductive GeminiFailureKind where
  | config : GeminiFailureKind
  | timeout : GeminiFailureKind
  | parse : GeminiFailureKind
  | generic : GeminiFailureKind
deriving DecidableEq

/-- What `analyzeCode` ultimately throws: either an error propagated
unchanged on its first occurrence, or the single aggregated
`GeminiServiceError` referencing the last underlying error. -/
inductive AnalyzeCodeError where
  | propagated (k : GeminiFailureKind) : AnalyzeCodeError
  | aggregated (lastErr : GeminiFailureKind) : AnalyzeCodeError
deriving DecidableEq

/-- `maxRetries` of `GeminiService`. -/
def maxRetries : Nat := 2

/-- `delay(attempt)`: `1000ms * 2 ^ (attempt - 1)` (gemini.service.ts
lines 242-246). -/
def geminiDelayMs (attempt : Nat) : Nat := 1000 * 2 ^ (attempt - 1)

/-- The retry loop, abstracted over the outcome each attempt would
produce (`env attempt` is the result of `makeApiRequest` +
`parseResponse` on that attempt).  Returns the final outcome, the
number of the last attempt made, and the list of backoff delays that
were awaited.  `fuel` counts the attempts still allowed after the
current one (`attempt === maxRetries` is `fuel = 0`). -/
def analyzeCodeLoop (env : Nat → Except GeminiFailureKind CodeAnalysisResult) :
    Nat → Nat → Except AnalyzeCodeError CodeAnalysisResult × Nat × List Nat
  | attempt, fuel =>
    match env attempt with
    | .ok r => (.ok r, attempt, [])
    | .error k =>
      if k = .config ∨ k = .parse then (.error (.propagated k), attempt, [])
      else
        match fuel with
        | 0 => (.error (.aggregated k), attempt, [])
        | fuel' + 1 =>
          let rest := analyzeCodeLoop env (attempt + 1) fuel'
          (rest.1, rest.2.1, geminiDelayMs attempt :: rest.2.2)

/-- `analyzeCode` after its precondition checks: attempts start at 1
and at most `maxRetries` are made. -/
def analyzeCode (env : Nat → Except GeminiFailureKind CodeAnalysisResult) :
    Except AnalyzeCodeError CodeAnalysisResult × Nat × List Nat :=
  analyzeCodeLoop env 1 (maxRetries - 1)

/-! ### The review store (`review.service.ts`) -/

/-- Error taxonomy of the service layer, as a tagged union of kinds. -/
inductive ServiceError where
  | validation : ServiceError
  | notFound : ServiceError
  | authorization : ServiceError
  | internal : ServiceError
deriving DecidableEq

/-- `String.prototype.toLowerCase` (the ASCII part, which is all the
stored language codes use): lower-cases each character. -/
def jsToLower (s : String) : String := ⟨s.data.map Char.toLower⟩

/-- A stored row of the `reviews` table. -/
structure SupaReviewRow where
  id : String
  user_id : String
  code : String
  language : String
  file_name : Option String
  analysis : CodeAnalysisResult
  created_at : String
  updated_at : String

/-- A review as returned to callers. -/
structure Review where
  id : String
  userId : String
  code : String
  language : String
  fileName : Option String
  analysis : CodeAnalysisResult
  createdAt : String
  updatedAt : String

/-- `transformSupabaseReview` (review.service.ts lines 444-455). -/
def transformSupabaseReview (d : SupaReviewRow) : Review :=
  ⟨d.id, d.user_id, d.code, d.language, d.file_name, d.analysis, d.created_at, d.updated_at⟩

/-- Outcome of a supabase `.select(...).eq('id', x).single()` call:
`noRows` is the PGRST116 case, more than one row is a different error
code. -/
inductive SingleRowError where
  | noRows : SingleRowError
  | multipleRows : SingleRowError
deriving DecidableEq

/-- `.select('*').eq('id', reviewId).single()` over a table state. -/
def selectSingleById (db : List SupaReviewRow) (reviewId : String) :
    Except SingleRowError SupaReviewRow :=
  match db.filter (fun r => r.id == reviewId) with
  | [] => .error .noRows
  | [r] => .ok r
  | _ => .error .multipleRows

/-- `createReview` (review.service.ts lines 38-96): validates the
required fields and the 500KB code ceiling, then inserts a row whose
`language` is the lower-cased input.  `genId` and `nowIso` stand for
the generated id and the insertion timestamp.  Returns the created
review and the new table state. -/
def createReview (db : List SupaReviewRow) (genId nowIso : String)
    (userId code language : String) (fileName : Option String)
    (analysisResult : CodeAnalysisResult) :
    Except ServiceError (Review × List SupaReviewRow) :=
  if userId = "" ∨ code = "" ∨ language = "" then .error .validation
  else if code.length > 500 * 1024 then .error .validation
  else
    let row : SupaReviewRow :=
      ⟨genId, userId, code, jsToLower language, fileName, analysisResult, nowIso, nowIso⟩
    .ok (transformSupabaseReview row, db ++ [row])

/-- `getReviewById` (review.service.ts lines 101-144): fetch by id
alone, then check ownership; a missing row is `notFound`, a row owned
by someone else is `authorization`. -/
def getReviewById (db : List SupaReviewRow) (reviewId userId : String) :
    Except ServiceError Review :=
  if reviewId = "" ∨ userId = "" then .error .validation
  else
    match selectSingleById db reviewId with
    | .error .noRows => .error .notFound
    | .error .multipleRows => .error .internal
    | .ok d =>
      if d.user_id ≠ userId then .error .authorization
      else .ok (transformSupabaseReview d)

/-- `deleteReview` (review.service.ts lines 232-286): ownership is
checked against the table state at check time (`dbAtCheck`), and the
delete itself filters on **both** the id and the owner against the
possibly different state at delete time (`dbAtDelete`), mirroring
`.delete().eq('id', reviewId).eq('user_id', userId)`. -/
def deleteReview (dbAtCheck dbAtDelete : List SupaReviewRow)
    (reviewId userId : String) : Except ServiceError (List SupaReviewRow) :=
  if reviewId = "" ∨ userId = "" then .error .validation
  else
    match selectSingleById dbAtCheck reviewId with
    | .error .noRows => .error .notFound
    | .error .multipleRows => .error .internal
    | .ok d =>
      if d.user_id ≠ userId then .error .authorization
      else .ok (dbAtDelete.filter (fun r => !(r.id == reviewId && r.user_id == userId)))

/-- The row predicate built by `getUserReviews` (review.service.ts
lines 180-188): rows of the owner, and — when a non-empty language
filter is given — rows whose stored language equals the lower-cased
filter. -/
def getUserReviewsFilter (userId : String) (language : Option String)
    (row : SupaReviewRow) : Bool :=
  row.user_id == userId &&
    (match language with
     | none => true
     | some l => if l = "" then true else row.language == jsToLower l)

/-! ### The analyze route (`review.routes.ts`) -/

/-- The response body of a successful `POST /analyze` (lines 152-157):
the full analysis, the id of the saved review if one was saved, and
`saved: !!reviewId`. -/
structure AnalyzeResponse where
  analysis : CodeAnalysisResult
  reviewId : Option String
  saved : Bool

/-- The tail of the analyze handler (review.routes.ts lines 133-157)
after a successful AI analysis: if an identity was resolved the save is
attempted, and a save failure is caught and logged — the handler always
reaches `res.json` with the full analysis. -/
def analyzeRespond (userId : Option String) (analysisResult : CodeAnalysisResult)
    (saveOutcome : Except ServiceError Review) : AnalyzeResponse :=
  let reviewId : Option String :=
    match userId, saveOutcome with
    | some _, .ok rev => some rev.id
    | _, _ => none
  ⟨analysisResult, reviewId, reviewId.isSome⟩

/-- Outcome of the `GET /search` handler's own validation
(review.routes.ts lines 386-414): either a 400 validation response
sent before the store is consulted, or a call into
`reviewService.searchReviews` with the trimmed query. -/
inductive SearchHandlerOutcome where
  | badRequest : SearchHandlerOutcome
  | storeCalled (trimmedQuery : String) (page limit : Nat) : SearchHandlerOutcome
deriving DecidableEq

/-- The `GET /search` handler's query validation: a missing, empty or
whitespace-only query and a query longer than 100 characters are
rejected with 400; an accepted query is trimmed before being passed to
the store. -/
def searchHandler (q : Option String) (page limit : Nat) : SearchHandlerOutcome :=
  match q with
  | none => .badRequest
  | some query =>
    if (jsTrim query.data).length = 0 then .badRequest
    else if query.length > 100 then .badRequest
    else .storeCalled ⟨jsTrim query.data⟩ page limit

/-! ### The admission controller (`rateLimit.middleware.ts`) -/

/-- One fixed-window counter: the window's start time and the number of
requests counted in it. -/
structure RLRecord where
  windowStart : Nat
  count : Nat
deriving DecidableEq

/-- The counter store of one limiter class: newest binding first. -/
abbrev RLStore := List (String × RLRecord)

/-- Key lookup in a counter store. -/
def rlLookup : RLStore → String → Option RLRecord
  | [], _ => none
  | (k1, r) :: rest, k => if k1 = k then some r else rlLookup rest k

/-- Modelled from the spec: the fixed-window check of the rate-limit
store (the `express-rate-limit` dependency, whose code is not part of
this repository).  "on each check, look up the record for
`(class, key)`.  If absent or its window has elapsed, start a fresh
window with count 1 and admit.  Otherwise increment the count; admit
iff the new count ≤ limit, else reject."  Returns the admit decision
and the record written back. -/
def fixedWindowCheck (limit windowMs : Nat) (rec : Option RLRecord) (now : Nat) :
    Bool × RLRecord :=
  match rec with
  | none => (true, ⟨now, 1⟩)
  | some r =>
    if r.windowStart + windowMs ≤ now then (true, ⟨now, 1⟩)
    else (decide (r.count + 1 ≤ limit), ⟨r.windowStart, r.count + 1⟩)

/-- A request as the limiters see it: the caller address and the
resolved identity (`req.user` / `req.tokenPayload`), if any. -/
structure ReviewRequest where
  ip : String
  identity : Option String

/-- One limiter class: window, limit, key scheme and skip predicate. -/
structure Limiter where
  windowMs : Nat
  limit : Nat
  key : ReviewRequest → String
  skip : ReviewRequest → Bool

/-- `anonymousReviewLimiter` (rateLimit.middleware.ts lines 57-89):
1 hour window, 5 per caller address, skipped when an identity is
present. -/
def anonymousReviewLimiter : Limiter :=
  { windowMs := 3600000
    limit := 5
    key := fun req => req.ip
    skip := fun req => req.identity.isSome }

/-- `authenticatedReviewLimiter` (rateLimit.middleware.ts lines
95-135): 1 hour window, 30 per identity id (key `user:<id>`, falling
back to the address), applied only when an identity is present. -/
def authenticatedReviewLimiter : Limiter :=
  { windowMs := 3600000
    limit := 30
    key := fun req =>
      match req.identity with
      | some uid => "user:" ++ uid
      | none => req.ip
    skip := fun req => req.identity.isNone }

/-- `Math.ceil((resetTime - now) / 1000)` in whole milliseconds. -/
def retryAfterSeconds (resetTime now : Nat) : Nat :=
  (resetTime - now + 999) / 1000

/-- What a limiter middleware does with a request. -/
inductive LimiterOutcome where
  | proceed : LimiterOutcome
  | rejected (retryAfter : Nat) : LimiterOutcome
deriving DecidableEq

/-- Running one limiter middleware: a skipped request passes through
untouched; otherwise the fixed-window check runs against the caller's
key and the updated record is written back; a rejection carries
`retryAfter` seconds until the window resets. -/
def applyLimiter (lim : Limiter) (st : RLStore) (req : ReviewRequest) (now : Nat) :
    LimiterOutcome × RLStore :=
  if lim.skip req then (.proceed, st)
  else
    let k := lim.key req
    let res := fixedWindowCheck lim.limit lim.windowMs (rlLookup st k) now
    let st2 : RLStore := (k, res.2) :: st
    if res.1 then (.proceed, st2)
    else (.rejected (retryAfterSeconds (res.2.windowStart + lim.windowMs) now), st2)

/-- A sequence of checks against one limiter, threading the store. -/
def runCalls (lim : Limiter) : RLStore → List (ReviewRequest × Nat) →
    List LimiterOutcome × RLStore
  | st, [] => ([], st)
  | st, (req, t) :: rest =>
    let step := applyLimiter lim st req t
    let tail := runCalls lim step.2 rest
    (step.1 :: tail.1, tail.2)

/-- The admission stage of `POST /analyze` as the route wires it
(review.routes.ts lines 119-125): the chain is `optionalAuth,
anonymousReviewLimiter, ...` — only the anonymous limiter is mounted,
and the authenticated-class store is never consulted or written. -/
def analyzeRouteAdmission (anonStore authStore : RLStore) (req : ReviewRequest)
    (now : Nat) : LimiterOutcome × RLStore × RLStore :=
  let step := applyLimiter anonymousReviewLimiter anonStore req now
  (step.1, step.2, authStore)


/-! ## Helper lemmas -/

theorem lookupProp_insert_same (ps : List (String × Json)) (k : String) (v : Json) :
    lookupProp (insertProp ps k v) k = some v := by
  induction ps with
  | nil => simp [insertProp, lookupProp]
  | cons hd tl ih =>
    by_cases h : hd.1 = k
    · simp [insertProp, h, lookupProp]
    · simp only [insertProp, h, if_false, lookupProp, ih]

theorem lookupProp_insert_ne (ps : List (String × Json)) (k k1 : String) (v : Json)
    (h : k ≠ k1) : lookupProp (insertProp ps k v) k1 = lookupProp ps k1 := by
  induction ps with
  | nil => simp [insertProp, lookupProp, h]
  | cons hd tl ih =>
    by_cases h2 : hd.1 = k
    · simp [insertProp, h2, lookupProp, h]
    · simp only [insertProp, h2, if_false, lookupProp, ih]

theorem getField_setField_same (j j1 : Json) (k : String) (v : Json)
    (h : setField j k v = some j1) : getField j1 k = some v := by
  cases j <;> simp [setField] at h <;>
    simp [← h, getField, lookupProp_insert_same]

theorem getField_setField_ne (j j1 : Json) (k k1 : String) (v : Json)
    (hk : k ≠ k1) (h : setField j k v = some j1) : getField j1 k1 = getField j k1 := by
  cases j <;> simp [setField] at h <;>
    simp [← h, getField, lookupProp_insert_ne _ _ _ _ hk]

theorem optionMapM_mem (f : Json → Option Json) (l l2 : List Json) (e : Json)
    (h : optionMapM f l = some l2) (he : e ∈ l2) : ∃ e0 ∈ l, f e0 = some e := by
  induction l generalizing l2 with
  | nil =>
    simp [optionMapM] at h
    subst h
    simp at he
  | cons x xs ih =>
    simp only [optionMapM] at h
    cases hx : f x with
    | none => rw [hx] at h; exact absurd h (by simp)
    | some y =>
      cases hxs : optionMapM f xs with
      | none => rw [hx, hxs] at h; exact absurd h (by simp)
      | some ys =>
        rw [hx, hxs] at h
        injection h with h
        subst h
        rcases he with _ | ⟨_, hmem⟩
        · exact ⟨x, by simp, hx⟩
        · rcases ih ys hxs hmem with ⟨e0, hm, hf⟩
          exact ⟨e0, by simp [hm], hf⟩

theorem validateLineItem_spec (j j2 : Json) (h : validateLineItem j = some j2) :
    (∃ q, getField j2 "line" = some (.num q)) ∧
    (∀ k, k ≠ "line" → getField j2 k = getField j k) := by
  unfold validateLineItem at h
  split at h
  case _ q heq =>
    injection h with h
    subst h
    exact ⟨⟨q, heq⟩, fun k _ => rfl⟩
  case _ =>
    exact ⟨⟨0, getField_setField_same _ _ _ _ h⟩,
      fun k hk => getField_setField_ne _ _ _ _ _ (Ne.symm hk) h⟩

theorem validateSecurityItem_spec (j j2 : Json) (h : validateSecurityItem j = some j2) :
    (∃ sv, getField j2 "severity" = some (.str sv) ∧ sv ∈ severityValues) ∧
    (∃ q, getField j2 "line" = some (.num q)) := by
  unfold validateSecurityItem at h
  split at h
  · exact absurd h (by simp)
  case _ j1 hstage =>
    have hline := validateLineItem_spec j1 j2 h
    have hsev1 : ∃ sv, getField j1 "severity" = some (.str sv) ∧ sv ∈ severityValues := by
      split at hstage
      case _ s heq =>
        split at hstage
        case isTrue hmem =>
          injection hstage with hstage
          subst hstage
          exact ⟨s, heq, hmem⟩
        case isFalse =>
          exact ⟨"Medium", getField_setField_same _ _ _ _ hstage, by simp [severityValues]⟩
      case _ =>
        exact ⟨"Medium", getField_setField_same _ _ _ _ hstage, by simp [severityValues]⟩
    rcases hsev1 with ⟨sv, hsv, hmem⟩
    exact ⟨⟨sv, by rw [hline.2 "severity" (by simp)]; exact hsv, hmem⟩, hline.1⟩

/-! ## Claim C2 — persistence isolation of the analyze handler -/

/-- Claim C2: for every analyze request with a resolved identity, if the
store's create operation throws any error after a successful AI
analysis, the request still completes successfully: the response
carries the full analysis result, no review id, and `saved = false`;
the analysis result is never discarded because of the storage
failure. -/
theorem analyzeRespond_persistence_isolation
    (uid : String) (analysisResult : CodeAnalysisResult) (e : ServiceError) :
    analyzeRespond (some uid) analysisResult (.error e) =
      ⟨analysisResult, none, false⟩ := rfl

/-! ## Claim C5 — retry policy of `analyzeCode` -/

/-- Claim C5: at most 2 attempts are made; a timeout or generic
transport failure triggers a retry while a configuration or parse
error propagates on its first occurrence; before attempt 2 the invoker
waits `1000ms * 2 ^ (attempt - 1) = 1s`; and when both attempts fail
with retryable errors a single aggregated error referencing the last
underlying error is thrown. -/
theorem analyzeCode_retry_policy :
    (∀ env, (analyzeCode env).2.1 ≤ maxRetries) ∧
    (geminiDelayMs 1 = 1000 * 2 ^ 0 ∧ geminiDelayMs 1 = 1000) ∧
    (∀ env r, env 1 = .ok r → analyzeCode env = (.ok r, 1, [])) ∧
    (∀ env k, env 1 = .error k → (k = .config ∨ k = .parse) →
      analyzeCode env = (.error (.propagated k), 1, [])) ∧
    (∀ env k r, env 1 = .error k → k ≠ .config → k ≠ .parse → env 2 = .ok r →
      analyzeCode env = (.ok r, 2, [geminiDelayMs 1])) ∧
    (∀ env k1 k2, env 1 = .error k1 → k1 ≠ .config → k1 ≠ .parse →
      env 2 = .error k2 → k2 ≠ .config → k2 ≠ .parse →
      analyzeCode env = (.error (.aggregated k2), 2, [geminiDelayMs 1])) := by
  refine ⟨?_, ⟨rfl, rfl⟩, ?_, ?_, ?_, ?_⟩
  · intro env
    unfold analyzeCode maxRetries analyzeCodeLoop
    cases env 1 with
    | ok r => simp
    | error k =>
      simp only
      split
      · simp
      · unfold analyzeCodeLoop
        cases env 2 with
        | ok r => simp
        | error k2 =>
          simp only
          split <;> simp
  · intro env r h
    unfold analyzeCode maxRetries analyzeCodeLoop
    rw [h]
  · intro env k h hk
    unfold analyzeCode maxRetries analyzeCodeLoop
    rw [h]
    simp [hk]
  · intro env k r h hk1 hk2 h2
    have hn : ¬(k = .config ∨ k = .parse) := by simp [hk1, hk2]
    simp [analyzeCode, maxRetries, analyzeCodeLoop, h, h2, hn]
  · intro env k1 k2 h1 hk11 hk12 h2 hk21 hk22
    have hn1 : ¬(k1 = .config ∨ k1 = .parse) := by simp [hk11, hk12]
    have hn2 : ¬(k2 = .config ∨ k2 = .parse) := by simp [hk21, hk22]
    simp [analyzeCode, maxRetries, analyzeCodeLoop, h1, h2, hn1, hn2]

/-- Witness for C5: with a first-attempt timeout and a successful
second attempt, the loop retries once, waits 1000ms, and succeeds. -/
theorem analyzeCode_retry_policy_witness :
    analyzeCode (fun n => if n = 1 then .error .timeout else .ok ⟨[], [], [], []⟩) =
      (.ok ⟨[], [], [], []⟩, 2, [geminiDelayMs 1]) :=
  analyzeCode_retry_policy.2.2.2.2.1
    (fun n => if n = 1 then .error .timeout else .ok ⟨[], [], [], []⟩)
    .timeout ⟨[], [], [], []⟩ rfl (by simp) (by simp) rfl

/-! ## Claim C9 — language lower-casing and the case-insensitive filter -/

/-- Claim C9: `createReview` lowercases the language before storing, so
the stored language equals the lowercase of the input language; and the
list operation's language filter compares the lowercased filter value
against the stored value, which makes the filter match
case-insensitively. -/
theorem createReview_language_filter (db : List SupaReviewRow)
    (genId nowIso userId code language : String) (fileName : Option String)
    (analysisResult : CodeAnalysisResult)
    (h1 : userId ≠ "") (h2 : code ≠ "") (h3 : language ≠ "")
    (h4 : code.length ≤ 500 * 1024) :
    createReview db genId nowIso userId code language fileName analysisResult =
      .ok (transformSupabaseReview
             ⟨genId, userId, code, jsToLower language, fileName, analysisResult, nowIso, nowIso⟩,
           db ++ [⟨genId, userId, code, jsToLower language, fileName, analysisResult, nowIso, nowIso⟩]) ∧
    ∀ f : String, f ≠ "" →
      (getUserReviewsFilter userId (some f)
          ⟨genId, userId, code, jsToLower language, fileName, analysisResult, nowIso, nowIso⟩ = true
        ↔ jsToLower language = jsToLower f) := by
  constructor
  · unfold createReview
    rw [if_neg (by simp [h1, h2, h3]), if_neg (by omega)]
  · intro f hf
    simp [getUserReviewsFilter, hf]

/-- Witness for C9: a review created with language `"Python"` stores
`"python"` and is matched by the filter value `"PYTHON"`. -/
theorem createReview_language_filter_witness :
    createReview [] "r1" "t0" "u1" "x = 1" "Python" none ⟨[], [], [], []⟩ =
      .ok (transformSupabaseReview
             ⟨"r1", "u1", "x = 1", jsToLower "Python", none, ⟨[], [], [], []⟩, "t0", "t0"⟩,
           [] ++ [⟨"r1", "u1", "x = 1", jsToLower "Python", none, ⟨[], [], [], []⟩, "t0", "t0"⟩]) ∧
    getUserReviewsFilter "u1" (some "PYTHON")
        ⟨"r1", "u1", "x = 1", jsToLower "Python", none, ⟨[], [], [], []⟩, "t0", "t0"⟩ = true := by
  have h := createReview_language_filter [] "r1" "t0" "u1" "x = 1" "Python" none ⟨[], [], [], []⟩
    (by decide) (by decide) (by decide) (by decide)
  exact ⟨h.1, (h.2 "PYTHON" (by decide)).mpr (by decide)⟩

/-! ## Claim C10 — search query validation -/

/-- Claim C10: the search endpoint rejects, with a client validation
error and without reaching the store, every query that is missing,
empty or whitespace-only, and every query longer than 100 characters;
an accepted query is trimmed before being passed to the store's search
operation. -/
theorem searchHandler_validation :
    (∀ page limit, searchHandler none page limit = .badRequest) ∧
    (∀ q page limit, jsTrim q.data = [] →
      searchHandler (some q) page limit = .badRequest) ∧
    (∀ q page limit, 100 < q.length →
      searchHandler (some q) page limit = .badRequest) ∧
    (∀ q page limit, jsTrim q.data ≠ [] → q.length ≤ 100 →
      searchHandler (some q) page limit = .storeCalled ⟨jsTrim q.data⟩ page limit) := by
  refine ⟨fun _ _ => rfl, ?_, ?_, ?_⟩
  · intro q page limit h
    simp [searchHandler, h]
  · intro q page limit h
    simp only [searchHandler]
    by_cases h0 : (jsTrim q.data).length = 0
    · rw [if_pos h0]
    · rw [if_neg h0, if_pos (by omega)]
  · intro q page limit h1 h2
    simp only [searchHandler]
    rw [if_neg (by simp [List.length_eq_zero, h1]), if_neg (by omega)]

/-- Witness for C10: the query `" hello "` is accepted and reaches the
store trimmed to `"hello"`. -/
theorem searchHandler_validation_witness :
    searchHandler (some " hello ") 1 20 = .storeCalled "hello" 1 20 :=
  searchHandler_validation.2.2.2 " hello " 1 20 (by decide) (by decide)

/-! ## Claim C1 — the analyze route never consults the authenticated limiter -/

/-- Claim C1 (divergence witness): the analyze route mounts only the
anonymous limiter, which skips any request with a resolved identity, so
an authenticated request is admitted even when the authenticated-class
counter for its identity already stands at 30 inside the current
window — the 31st request proceeds to the AI invocation instead of
being rejected. -/
theorem analyzeRoute_authenticated_not_limited :
    analyzeRouteAdmission [] [("user:u1", ⟨0, 30⟩)] ⟨"203.0.113.7", some "u1"⟩ 1000 =
      (.proceed, [], [("user:u1", ⟨0, 30⟩)]) ∧
    fixedWindowCheck authenticatedReviewLimiter.limit authenticatedReviewLimiter.windowMs
        (rlLookup [("user:u1", ⟨0, 30⟩)] "user:u1") 1000 = (false, ⟨0, 31⟩) := by
  constructor
  · rfl
  · rfl

/-! ## Claim C6 — ownership on read and delete -/

/-- Claim C6: for every review id that exists in the store and every
caller identity different from the owner, `getReviewById` and
`deleteReview` yield an authorization error — never a not-found and
never a silent success — and the delete operation itself is
conditioned on both the review id and the owner id, so a row can never
be removed by a non-owner even if state changes between the ownership
check and the delete. -/
theorem ownership_enforced :
    (∀ (db : List SupaReviewRow) (reviewId userId : String) (row : SupaReviewRow),
      reviewId ≠ "" → userId ≠ "" →
      db.filter (fun r => r.id == reviewId) = [row] → row.user_id ≠ userId →
      getReviewById db reviewId userId = .error .authorization) ∧
    (∀ (dbAtCheck dbAtDelete : List SupaReviewRow) (reviewId userId : String)
        (row : SupaReviewRow),
      reviewId ≠ "" → userId ≠ "" →
      dbAtCheck.filter (fun r => r.id == reviewId) = [row] → row.user_id ≠ userId →
      deleteReview dbAtCheck dbAtDelete reviewId userId = .error .authorization) ∧
    (∀ (dbAtCheck dbAtDelete : List SupaReviewRow) (reviewId userId : String)
        (db2 : List SupaReviewRow),
      deleteReview dbAtCheck dbAtDelete reviewId userId = .ok db2 →
      ∀ r ∈ dbAtDelete, r ∉ db2 → r.id = reviewId ∧ r.user_id = userId) := by
  refine ⟨?_, ?_, ?_⟩
  · intro db reviewId userId row h1 h2 hf ho
    unfold getReviewById selectSingleById
    rw [if_neg (by simp [h1, h2]), hf]
    simp [ho]
  · intro dbC dbD reviewId userId row h1 h2 hf ho
    unfold deleteReview selectSingleById
    rw [if_neg (by simp [h1, h2]), hf]
    simp [ho]
  · intro dbC dbD reviewId userId db2 h r hmem hnot
    unfold deleteReview at h
    split at h
    · exact absurd h (by simp)
    · rcases hsel : selectSingleById dbC reviewId with e | d
      · cases e <;> simp [hsel] at h
      · simp only [hsel] at h
        split at h
        · exact absurd h (by simp)
        · injection h with h
          subst h
          by_cases hid : (r.id == reviewId && r.user_id == userId) = true
          · simp only [Bool.and_eq_true, beq_iff_eq] at hid
            exact hid
          · exact absurd (List.mem_filter.mpr ⟨hmem, by simp [hid]⟩) hnot

/-- Witness for C6: a caller who is not the owner of the stored review
`rev1` gets an authorization error on read and on delete. -/
theorem ownership_enforced_witness :
    getReviewById [⟨"rev1", "owner1", "x", "python", none, ⟨[], [], [], []⟩, "t", "t"⟩]
        "rev1" "intruder" = .error .authorization ∧
    deleteReview [⟨"rev1", "owner1", "x", "python", none, ⟨[], [], [], []⟩, "t", "t"⟩]
        [⟨"rev1", "owner1", "x", "python", none, ⟨[], [], [], []⟩, "t", "t"⟩]
        "rev1" "intruder" = .error .authorization :=
  ⟨ownership_enforced.1 _ "rev1" "intruder"
      ⟨"rev1", "owner1", "x", "python", none, ⟨[], [], [], []⟩, "t", "t"⟩
      (by decide) (by decide) rfl (by decide),
   ownership_enforced.2.1 _ _ "rev1" "intruder"
      ⟨"rev1", "owner1", "x", "python", none, ⟨[], [], [], []⟩, "t", "t"⟩
      (by decide) (by decide) rfl (by decide)⟩

/-! ## Claim C7 — the anonymous analysis admission class -/

theorem rlLookup_cons_self (st : RLStore) (k : String) (r : RLRecord) :
    rlLookup ((k, r) :: st) k = some r := by
  simp [rlLookup]

theorem applyLimiter_anon_fresh (st : RLStore) (ip : String) (now : Nat)
    (h : rlLookup st ip = none) :
    applyLimiter anonymousReviewLimiter st ⟨ip, none⟩ now =
      (.proceed, (ip, ⟨now, 1⟩) :: st) := by
  simp [applyLimiter, anonymousReviewLimiter, fixedWindowCheck, h]

theorem applyLimiter_anon_elapsed (st : RLStore) (ip : String) (now w c : Nat)
    (h : rlLookup st ip = some ⟨w, c⟩) (hw : w + 3600000 ≤ now) :
    applyLimiter anonymousReviewLimiter st ⟨ip, none⟩ now =
      (.proceed, (ip, ⟨now, 1⟩) :: st) := by
  simp [applyLimiter, anonymousReviewLimiter, fixedWindowCheck, h, hw]

theorem applyLimiter_anon_inc (st : RLStore) (ip : String) (now w c : Nat)
    (h : rlLookup st ip = some ⟨w, c⟩) (hw : now < w + 3600000) (hc : c + 1 ≤ 5) :
    applyLimiter anonymousReviewLimiter st ⟨ip, none⟩ now =
      (.proceed, (ip, ⟨w, c + 1⟩) :: st) := by
  simp [applyLimiter, anonymousReviewLimiter, fixedWindowCheck, h,
    Nat.not_le.mpr hw, hc]

theorem applyLimiter_anon_reject (st : RLStore) (ip : String) (now w c : Nat)
    (h : rlLookup st ip = some ⟨w, c⟩) (hw : now < w + 3600000) (hc : 5 < c + 1) :
    applyLimiter anonymousReviewLimiter st ⟨ip, none⟩ now =
      (.rejected (retryAfterSeconds (w + 3600000) now), (ip, ⟨w, c + 1⟩) :: st) := by
  simp [applyLimiter, anonymousReviewLimiter, fixedWindowCheck, h,
    Nat.not_le.mpr hw, Nat.not_le.mpr hc]

/-- Claim C7: the anonymous-analysis class (window 3600s, limit 5,
keyed by caller address) admits a call when no record exists or the
window has elapsed (starting a fresh window with count 1), otherwise
increments the count and admits iff the new count is at most 5; the
sixth call within one window is rejected with `retryAfter > 0`; a call
after the window elapses is admitted again; and the check is skipped
entirely when an identity is present. -/
theorem anonymousReviewLimiter_policy :
    (∀ (st : RLStore) (req : ReviewRequest) (now : Nat), req.identity.isSome →
      applyLimiter anonymousReviewLimiter st req now = (.proceed, st)) ∧
    (∀ (st : RLStore) (ip : String) (now : Nat), rlLookup st ip = none →
      applyLimiter anonymousReviewLimiter st ⟨ip, none⟩ now =
        (.proceed, (ip, ⟨now, 1⟩) :: st)) ∧
    (∀ (st : RLStore) (ip : String) (now w c : Nat),
      rlLookup st ip = some ⟨w, c⟩ → w + 3600000 ≤ now →
      applyLimiter anonymousReviewLimiter st ⟨ip, none⟩ now =
        (.proceed, (ip, ⟨now, 1⟩) :: st)) ∧
    (∀ (st : RLStore) (ip : String) (now w c : Nat),
      rlLookup st ip = some ⟨w, c⟩ → now < w + 3600000 → c + 1 ≤ 5 →
      applyLimiter anonymousReviewLimiter st ⟨ip, none⟩ now =
        (.proceed, (ip, ⟨w, c + 1⟩) :: st)) ∧
    (∀ (st : RLStore) (ip : String) (now w c : Nat),
      rlLookup st ip = some ⟨w, c⟩ → now < w + 3600000 → 5 < c + 1 →
      applyLimiter anonymousReviewLimiter st ⟨ip, none⟩ now =
        (.rejected (retryAfterSeconds (w + 3600000) now), (ip, ⟨w, c + 1⟩) :: st) ∧
      0 < retryAfterSeconds (w + 3600000) now) ∧
    (∀ (ip : String) (t1 t2 t3 t4 t5 t6 : Nat),
      t2 < t1 + 3600000 → t3 < t1 + 3600000 → t4 < t1 + 3600000 →
      t5 < t1 + 3600000 → t6 < t1 + 3600000 →
      runCalls anonymousReviewLimiter []
          [(⟨ip, none⟩, t1), (⟨ip, none⟩, t2), (⟨ip, none⟩, t3),
           (⟨ip, none⟩, t4), (⟨ip, none⟩, t5), (⟨ip, none⟩, t6)] =
        ([.proceed, .proceed, .proceed, .proceed, .proceed,
          .rejected (retryAfterSeconds (t1 + 3600000) t6)],
         [(ip, ⟨t1, 6⟩), (ip, ⟨t1, 5⟩), (ip, ⟨t1, 4⟩), (ip, ⟨t1, 3⟩),
          (ip, ⟨t1, 2⟩), (ip, ⟨t1, 1⟩)]) ∧
      0 < retryAfterSeconds (t1 + 3600000) t6) := by
  refine ⟨?_, applyLimiter_anon_fresh, applyLimiter_anon_elapsed,
    applyLimiter_anon_inc, ?_, ?_⟩
  · intro st req now h
    simp [applyLimiter, anonymousReviewLimiter, h]
  · intro st ip now w c h hw hc
    refine ⟨applyLimiter_anon_reject st ip now w c h hw hc, ?_⟩
    have h1 : 1 ≤ (w + 3600000 - now + 999) / 1000 :=
      (Nat.le_div_iff_mul_le (by omega)).mpr (by omega)
    unfold retryAfterSeconds
    omega
  · intro ip t1 t2 t3 t4 t5 t6 ht2 ht3 ht4 ht5 ht6
    have e1 := applyLimiter_anon_fresh [] ip t1 rfl
    have e2 := applyLimiter_anon_inc [(ip, ⟨t1, 1⟩)] ip t2 t1 1
      (rlLookup_cons_self _ _ _) ht2 (by omega)
    have e3 := applyLimiter_anon_inc [(ip, ⟨t1, 2⟩), (ip, ⟨t1, 1⟩)] ip t3 t1 2
      (rlLookup_cons_self _ _ _) ht3 (by omega)
    have e4 := applyLimiter_anon_inc [(ip, ⟨t1, 3⟩), (ip, ⟨t1, 2⟩), (ip, ⟨t1, 1⟩)]
      ip t4 t1 3 (rlLookup_cons_self _ _ _) ht4 (by omega)
    have e5 := applyLimiter_anon_inc
      [(ip, ⟨t1, 4⟩), (ip, ⟨t1, 3⟩), (ip, ⟨t1, 2⟩), (ip, ⟨t1, 1⟩)]
      ip t5 t1 4 (rlLookup_cons_self _ _ _) ht5 (by omega)
    have e6 := applyLimiter_anon_reject
      [(ip, ⟨t1, 5⟩), (ip, ⟨t1, 4⟩), (ip, ⟨t1, 3⟩), (ip, ⟨t1, 2⟩), (ip, ⟨t1, 1⟩)]
      ip t6 t1 5 (rlLookup_cons_self _ _ _) ht6 (by omega)
    refine ⟨?_, ?_⟩
    · simp only [runCalls, e1, e2, e3, e4, e5, e6]
    · have h1 : 1 ≤ (t1 + 3600000 - t6 + 999) / 1000 :=
        (Nat.le_div_iff_mul_le (by omega)).mpr (by omega)
      unfold retryAfterSeconds
      omega

/-- Witness for C7: six anonymous calls from one address inside one
hour — five admitted, the sixth rejected with a positive retry-after —
and an authenticated request that the anonymous limiter skips. -/
theorem anonymousReviewLimiter_policy_witness :
    runCalls anonymousReviewLimiter []
        [(⟨"198.51.100.9", none⟩, 0), (⟨"198.51.100.9", none⟩, 1),
         (⟨"198.51.100.9", none⟩, 2), (⟨"198.51.100.9", none⟩, 3),
         (⟨"198.51.100.9", none⟩, 4), (⟨"198.51.100.9", none⟩, 5)] =
      ([.proceed, .proceed, .proceed, .proceed, .proceed,
        .rejected (retryAfterSeconds (0 + 3600000) 5)],
       [("198.51.100.9", ⟨0, 6⟩), ("198.51.100.9", ⟨0, 5⟩), ("198.51.100.9", ⟨0, 4⟩),
        ("198.51.100.9", ⟨0, 3⟩), ("198.51.100.9", ⟨0, 2⟩), ("198.51.100.9", ⟨0, 1⟩)]) ∧
    0 < retryAfterSeconds (0 + 3600000) 5 ∧
    applyLimiter anonymousReviewLimiter [] ⟨"198.51.100.9", some "u1"⟩ 0 =
      (.proceed, []) := by
  have h := anonymousReviewLimiter_policy.2.2.2.2.2 "198.51.100.9" 0 1 2 3 4 5
    (by decide) (by decide) (by decide) (by decide) (by decide)
  exact ⟨h.1, h.2, anonymousReviewLimiter_policy.1 [] ⟨"198.51.100.9", some "u1"⟩ 0 rfl⟩

/-! ## Claim C3 — shape of every accepted analysis result -/

theorem validateAnalysisResult_spec (r0 r : CodeAnalysisResult)
    (h : validateAnalysisResult r0 = some r) :
    (∀ e ∈ r.security,
      (∃ sv, getField e "severity" = some (.str sv) ∧ sv ∈ severityValues) ∧
      ∃ q, getField e "line" = some (.num q)) ∧
    (∀ e ∈ r.performance ++ r.bestPractices ++ r.refactoring,
      ∃ q, getField e "line" = some (.num q)) := by
  unfold validateAnalysisResult at h
  split at h
  case _ sec perf bp rf h1 h2 h3 h4 =>
    injection h with h
    subst h
    constructor
    · intro e he
      obtain ⟨e0, _, hf⟩ := optionMapM_mem _ _ _ _ h1 he
      exact validateSecurityItem_spec e0 e hf
    · intro e he
      simp only [List.mem_append] at he
      rcases he with (he | he) | he
      · obtain ⟨e0, _, hf⟩ := optionMapM_mem _ _ _ _ h2 he
        exact (validateLineItem_spec e0 e hf).1
      · obtain ⟨e0, _, hf⟩ := optionMapM_mem _ _ _ _ h3 he
        exact (validateLineItem_spec e0 e hf).1
      · obtain ⟨e0, _, hf⟩ := optionMapM_mem _ _ _ _ h4 he
        exact (validateLineItem_spec e0 e hf).1
  case _ =>
    exact absurd h (by simp)

/-- Claim C3 (amended): every accepted response yields a result with
exactly the four array collections; every entry's `line` is a JSON
number — a non-numeric `line` is coerced to 0, but a negative numeric
`line` passes through unchanged, so `line ≥ 0` does **not** hold — and
every security entry's `severity` is one of Critical, High, Medium,
Low (anything else is coerced to Medium). -/
theorem parseResponse_shape (s : String) (r : CodeAnalysisResult)
    (h : parseResponse s = .ok r) :
    (∀ e ∈ r.security,
      (∃ sv, getField e "severity" = some (.str sv) ∧ sv ∈ severityValues) ∧
      ∃ q, getField e "line" = some (.num q)) ∧
    (∀ e ∈ r.performance ++ r.bestPractices ++ r.refactoring,
      ∃ q, getField e "line" = some (.num q)) := by
  unfold parseResponse at h
  cases hp : jsonParse (cleanResponse s.data) with
  | none => simp only [hp] at h; exact absurd h (by simp)
  | some parsed =>
    simp only [hp] at h
    cases hio : isObjectLike parsed with
    | false => rw [hio] at h; simp at h
    | true =>
      rw [if_pos hio] at h
      cases hv : validateAnalysisResult (buildResult parsed) with
      | none => rw [hv] at h; exact absurd h (by simp)
      | some r2 =>
        rw [hv] at h
        injection h with h
        subst h
        exact validateAnalysisResult_spec _ _ hv

/-- Claim C3 (counterexample): the accepted response
`{"performance":[{"line":-1}]}` is returned with its negative numeric
line unchanged — the claimed invariant `line ≥ 0` fails. -/
theorem parseResponse_shape_counterexample :
    parseResponse "\x7b\"performance\":[\x7b\"line\":-1\x7d]\x7d" =
      .ok ⟨[], [.obj [("line", .num (-1))]], [], []⟩ ∧ ((-1 : Rat) < 0) :=
  ⟨rfl, by norm_num⟩

/-- Witness for C3 (amended): the coerced entry of an accepted response
has a `Medium` severity and a numeric line. -/
theorem parseResponse_shape_witness :
    (∃ sv, getField (.obj [("severity", .str "Medium"), ("line", .num 0)]) "severity" =
        some (.str sv) ∧ sv ∈ severityValues) ∧
    (∃ q, getField (.obj [("severity", .str "Medium"), ("line", .num 0)]) "line" =
        some (.num q)) :=
  (parseResponse_shape "\x7b\"security\":[\x7b\"severity\":\"Bogus\"\x7d]\x7d"
      ⟨[.obj [("severity", .str "Medium"), ("line", .num 0)]], [], [], []⟩ rfl).1
    (.obj [("severity", .str "Medium"), ("line", .num 0)]) (List.mem_singleton.mpr rfl)

/-! ## Claim C4 — repair of malformed payloads -/

theorem asArrayElems_of_not_array (o : Option Json) (h : isArrayValue o = false) :
    asArrayElems o = [] := by
  cases o with
  | none => rfl
  | some j => cases j <;> simp_all [isArrayValue, asArrayElems]

/-- Claim C4 (amended): a payload that parses to a JavaScript object
(including an array) whose four expected fields are all missing or not
arrays is repaired in place — each such field becomes an empty array —
and a result is returned; but a payload that parses to a non-object
value (null, a boolean, a number or a string) is **not** repaired: it
fails with a parse error carrying an excerpt of the raw text. -/
theorem parseResponse_repair (s : String) (j : Json)
    (hp : jsonParse (cleanResponse s.data) = some j) :
    (isObjectLike j = false → parseResponse s = .error ⟨excerpt200 s.data⟩) ∧
    (isObjectLike j = true →
      isArrayValue (getField j "security") = false →
      isArrayValue (getField j "performance") = false →
      isArrayValue (getField j "bestPractices") = false →
      isArrayValue (getField j "refactoring") = false →
      parseResponse s = .ok ⟨[], [], [], []⟩) := by
  constructor
  · intro hno
    unfold parseResponse
    simp only [hp, hno]
    rfl
  · intro hyes h1 h2 h3 h4
    unfold parseResponse
    simp only [hp, if_pos hyes]
    have hb : buildResult j = ⟨[], [], [], []⟩ := by
      unfold buildResult
      rw [asArrayElems_of_not_array _ h1, asArrayElems_of_not_array _ h2,
        asArrayElems_of_not_array _ h3, asArrayElems_of_not_array _ h4]
    rw [hb]
    rfl

/-- Claim C4 (counterexample): the payload `true` parses as JSON but is
not an object; `parseResponse` fails with a parse error instead of
repairing it into a result. -/
theorem parseResponse_repair_counterexample :
    parseResponse "true" = .error ⟨"true"⟩ := rfl

/-- Witness for C4 (amended): a JSON array payload — an object in the
JavaScript sense with all four fields missing — is repaired to four
empty collections, while the number payload `5` fails with a parse
error. -/
theorem parseResponse_repair_witness :
    parseResponse "[]" = .ok ⟨[], [], [], []⟩ ∧
    parseResponse "5" = .error ⟨excerpt200 "5".data⟩ :=
  ⟨(parseResponse_repair "[]" (.arr [] []) rfl).2 rfl rfl rfl rfl rfl,
   (parseResponse_repair "5" (.num 5) rfl).1 rfl⟩

/-! ## Claim C8 — fence-wrapping and normalization -/

theorem dropWhile_append_left (q : Char → Bool) (l1 l2 : List Char)
    (h : l1.dropWhile q ≠ []) :
    (l1 ++ l2).dropWhile q = l1.dropWhile q ++ l2 := by
  rw [List.dropWhile_append, if_neg]
  simpa using h

theorem stripTrailing_after (p : List Char) (h : p.dropWhile jsWs ≠ []) :
    stripTrailingFence (('\n' :: (p ++ ['\n', '`', '`', '`'])).dropWhile jsWs) = jsTrim p := by
  have h1 : ('\n' :: (p ++ ['\n', '`', '`', '`'])).dropWhile jsWs
      = p.dropWhile jsWs ++ ['\n', '`', '`', '`'] := by
    rw [List.dropWhile_cons, if_pos (by decide)]
    exact dropWhile_append_left jsWs p _ h
  rw [h1]
  simp only [stripTrailingFence]
  have h2 : (p.dropWhile jsWs ++ ['\n', '`', '`', '`']).reverse
      = '`' :: '`' :: '`' :: '\n' :: (p.dropWhile jsWs).reverse := by
    rw [List.reverse_append]
    rfl
  rw [h2]
  have h3 : ((['`', '`', '`'] : List Char).isPrefixOf
      ('`' :: '`' :: '`' :: '\n' :: (p.dropWhile jsWs).reverse)) = true := rfl
  rw [if_pos h3]
  show (('\n' :: (p.dropWhile jsWs).reverse).dropWhile jsWs).reverse = jsTrim p
  rw [List.dropWhile_cons, if_pos (by decide)]
  rfl

theorem cleanResponse_wrap_json (p : List Char) (h : p.dropWhile jsWs ≠ []) :
    cleanResponse ('`' :: '`' :: '`' :: 'j' :: 's' :: 'o' :: 'n' :: '\n' ::
        (p ++ ['\n', '`', '`', '`'])) = jsTrim p := by
  have hr : ('`' :: '`' :: '`' :: 'j' :: 's' :: 'o' :: 'n' :: '\n' ::
      (p ++ ['\n', '`', '`', '`'])).reverse
      = '`' :: '`' :: '`' :: '\n' ::
        ('`' :: '`' :: '`' :: 'j' :: 's' :: 'o' :: 'n' :: '\n' :: p).reverse := by
    show (('`' :: '`' :: '`' :: 'j' :: 's' :: 'o' :: 'n' :: '\n' :: p)
        ++ ['\n', '`', '`', '`']).reverse = _
    rw [List.reverse_append]
    rfl
  have htr : jsTrim ('`' :: '`' :: '`' :: 'j' :: 's' :: 'o' :: 'n' :: '\n' ::
      (p ++ ['\n', '`', '`', '`']))
      = '`' :: '`' :: '`' :: 'j' :: 's' :: 'o' :: 'n' :: '\n' ::
        (p ++ ['\n', '`', '`', '`']) := by
    unfold jsTrim trimLeft trimRight
    rw [List.dropWhile_cons, if_neg (by decide)]
    rw [hr, List.dropWhile_cons, if_neg (by decide)]
    rw [← hr, List.reverse_reverse]
  simp only [cleanResponse]
  rw [htr]
  have hpre : (("```json".data).isPrefixOf ('`' :: '`' :: '`' :: 'j' :: 's' :: 'o' :: 'n' ::
      '\n' :: (p ++ ['\n', '`', '`', '`']))) = true := rfl
  rw [if_pos hpre]
  show stripTrailingFence (('\n' :: (p ++ ['\n', '`', '`', '`'])).dropWhile jsWs) = jsTrim p
  exact stripTrailing_after p h

theorem cleanResponse_wrap_plain (p : List Char) (h : p.dropWhile jsWs ≠ []) :
    cleanResponse ('`' :: '`' :: '`' :: '\n' ::
        (p ++ ['\n', '`', '`', '`'])) = jsTrim p := by
  have hr : ('`' :: '`' :: '`' :: '\n' :: (p ++ ['\n', '`', '`', '`'])).reverse
      = '`' :: '`' :: '`' :: '\n' :: ('`' :: '`' :: '`' :: '\n' :: p).reverse := by
    show (('`' :: '`' :: '`' :: '\n' :: p) ++ ['\n', '`', '`', '`']).reverse = _
    rw [List.reverse_append]
    rfl
  have htr : jsTrim ('`' :: '`' :: '`' :: '\n' :: (p ++ ['\n', '`', '`', '`']))
      = '`' :: '`' :: '`' :: '\n' :: (p ++ ['\n', '`', '`', '`']) := by
    unfold jsTrim trimLeft trimRight
    rw [List.dropWhile_cons, if_neg (by decide)]
    rw [hr, List.dropWhile_cons, if_neg (by decide)]
    rw [← hr, List.reverse_reverse]
  simp only [cleanResponse]
  rw [htr]
  have hprej : (("```json".data).isPrefixOf ('`' :: '`' :: '`' :: '\n' ::
      (p ++ ['\n', '`', '`', '`']))) = false := rfl
  have hpre : (("```".data).isPrefixOf ('`' :: '`' :: '`' :: '\n' ::
      (p ++ ['\n', '`', '`', '`']))) = true := rfl
  rw [if_neg (by simp [hprej]), if_pos hpre]
  show stripTrailingFence (('\n' :: (p ++ ['\n', '`', '`', '`'])).dropWhile jsWs) = jsTrim p
  exact stripTrailing_after p h

theorem isPrefixOf_fence_of_fenceJson (x : List Char)
    (h : (("```json".data).isPrefixOf x) = true) : (("```".data).isPrefixOf x) = true := by
  have hj : "```json".data = ['`', '`', '`', 'j', 's', 'o', 'n'] := rfl
  have hb : "```".data = ['`', '`', '`'] := rfl
  rw [hj] at h
  rw [hb]
  match x with
  | [] => simp [List.isPrefixOf] at h
  | [a] => simp [List.isPrefixOf] at h
  | [a, b] => simp [List.isPrefixOf] at h
  | a :: b :: c :: rest =>
    simp only [List.isPrefixOf, Bool.and_eq_true] at h ⊢
    exact ⟨h.1, h.2.1, ⟨h.2.2.1, by simp [List.isPrefixOf]⟩⟩

theorem cleanResponse_no_fence (l : List Char)
    (h : (("```".data).isPrefixOf (jsTrim l)) = false) :
    cleanResponse l = jsTrim l := by
  have hj : ¬((("```json".data).isPrefixOf (jsTrim l)) = true) := by
    intro hyes
    rw [isPrefixOf_fence_of_fenceJson _ hyes] at h
    exact Bool.noConfusion h
  simp only [cleanResponse]
  rw [if_neg hj, if_neg (by simp [h])]

/-- Claim C8 (amended): for every payload whose trimmed text does not
itself begin with a fence, and which the response handling accepts,
parsing the payload wrapped in a leading/trailing fenced block
(```` ``` ```` or ```` ```json ```` variants) produces a result
identical to parsing it unwrapped.  (A payload whose trimmed text
begins with a fence is stripped differently wrapped and unwrapped, and
a rejected payload's parse error quotes the differing raw texts, so
the invariance cannot hold unconditionally.) -/
theorem parseResponse_fence_invariant (p : String) (r : CodeAnalysisResult)
    (hnf : (("```".data).isPrefixOf (jsTrim p.data)) = false)
    (hok : parseResponse p = .ok r) :
    parseResponse (wrapJsonFence p) = .ok r ∧
    parseResponse (wrapPlainFence p) = .ok r := by
  have hcl : cleanResponse p.data = jsTrim p.data := cleanResponse_no_fence _ hnf
  unfold parseResponse at hok
  rw [hcl] at hok
  cases hp : jsonParse (jsTrim p.data) with
  | none => simp only [hp] at hok; exact absurd hok (by simp)
  | some parsed =>
    simp only [hp] at hok
    have hne : p.data.dropWhile jsWs ≠ [] := by
      intro hnil
      have hz : jsTrim p.data = [] := by
        unfold jsTrim trimLeft
        rw [hnil]
        rfl
      rw [hz] at hp
      simp [show jsonParse ([] : List Char) = none from rfl] at hp
    have hwj : cleanResponse (wrapJsonFence p).data = jsTrim p.data := by
      have hd : (wrapJsonFence p).data = '`' :: '`' :: '`' :: 'j' :: 's' :: 'o' :: 'n' ::
          '\n' :: (p.data ++ ['\n', '`', '`', '`']) := rfl
      rw [hd]
      exact cleanResponse_wrap_json p.data hne
    have hwp : cleanResponse (wrapPlainFence p).data = jsTrim p.data := by
      have hd : (wrapPlainFence p).data = '`' :: '`' :: '`' ::
          '\n' :: (p.data ++ ['\n', '`', '`', '`']) := rfl
      rw [hd]
      exact cleanResponse_wrap_plain p.data hne
    cases hio : isObjectLike parsed with
    | false => rw [hio] at hok; simp at hok
    | true =>
      rw [if_pos hio] at hok
      cases hv : validateAnalysisResult (buildResult parsed) with
      | none => rw [hv] at hok; exact absurd hok (by simp)
      | some r2 =>
        rw [hv] at hok
        constructor
        · unfold parseResponse
          rw [hwj]
          simp only [hp, if_pos hio, hv]
          exact hok
        · unfold parseResponse
          rw [hwp]
          simp only [hp, if_pos hio, hv]
          exact hok

/-- Claim C8 (counterexample): the payload `"```\n\x7b\x7d"` — whose own
text begins with a fence — parses successfully unwrapped, but wrapped
in a ```` ```json ```` fence the cleaning strips only the outer
leading fence and the parse fails: the two results differ. -/
theorem parseResponse_fence_counterexample :
    parseResponse "```\n\x7b\x7d" = .ok ⟨[], [], [], []⟩ ∧
    parseResponse (wrapJsonFence "```\n\x7b\x7d") =
      .error ⟨"```json\n```\n\x7b\x7d\n```"⟩ ∧
    parseResponse (wrapJsonFence "```\n\x7b\x7d") ≠ parseResponse "```\n\x7b\x7d" := by
  refine ⟨rfl, rfl, ?_⟩
  intro hcontra
  rw [show parseResponse (wrapJsonFence "```\n\x7b\x7d") =
        .error ⟨"```json\n```\n\x7b\x7d\n```"⟩ from rfl,
      show parseResponse "```\n\x7b\x7d" =
        Except.ok (⟨[], [], [], []⟩ : CodeAnalysisResult) from rfl] at hcontra
  exact Except.noConfusion hcontra

/-- Witness for C8 (amended): the accepted payload `"\x7b\x7d"` parses to
the same four empty collections wrapped in either fence variant. -/
theorem parseResponse_fence_invariant_witness :
    parseResponse (wrapJsonFence "\x7b\x7d") = .ok ⟨[], [], [], []⟩ ∧
    parseResponse (wrapPlainFence "\x7b\x7d") = .ok ⟨[], [], [], []⟩ :=
  parseResponse_fence_invariant "\x7b\x7d" ⟨[], [], [], []⟩ rfl rfl
